import Mathlib

/-!
Verification development for `src/playwright_runner/twex_stock_filter.py`.

The Python source manipulates pandas data frames; here the relevant parts are
shallowly embedded over explicit record types:

* a daily indicator row (`IndRow`) carries the columns used by the condition
  evaluator of `process_stock` (lines 266-378); a pandas `NaN` cell is
  modelled as `Option.none` (every comparison against `NaN` is false in
  pandas, and the source guards each comparison with `pd.isna` checks, which
  the embedding mirrors by pattern matching);
* prices and volumes are modelled as exact rationals (`ℚ`); the float
  literals `1.5` and `2` of the source are exactly representable;
* `float("inf")` (the `ma10_minus_ma5_pct` sentinel, line 278) is modelled as
  `⊤ : WithTop ℚ`; the float `NaN` that arises at line 278 when `MA10` is
  `NaN` while `MA5` is present and nonzero is modelled as the outer `none` of
  `Option (WithTop ℚ)`;
* rational division by zero yields `0` in Lean where numpy float division
  yields `inf`/`NaN`; every theorem below that touches a division treats the
  zero-denominator case explicitly, and the single counterexample that
  exercises it uses the `0/0` configuration, on which the source (`NaN`) and
  the embedding (`0`) agree that the claimed bound fails.
-/

set_option maxRecDepth 8000

namespace Twex

/-- The five rule identifiers `條件1` .. `條件5` of `process_stock`. -/
inductive Rule
  | r1 | r2 | r3 | r4 | r5
deriving DecidableEq

/-- One row of the indicator-augmented frame built at lines 259-264: the
parsed columns `收盤價`, `開盤價`, `成交張數` and the derived columns
`Volume_MA5`, `Volume_MA10`, `MA5`, `MA10`, `MA20`, `RSI`.  `none` models a
pandas `NaN` cell. -/
structure IndRow where
  closePrice : Option ℚ
  openPrice : Option ℚ
  volume : Option ℚ
  volMA5 : Option ℚ
  volMA10 : Option ℚ
  ma5 : Option ℚ
  ma10 : Option ℚ
  ma20 : Option ℚ
  rsi : Option ℚ
deriving DecidableEq

/-- Body of one iteration of the signal-A scan (lines 284-293): the day is a
hit when none of `成交張數`, `Volume_MA5`, `Volume_MA10`, `收盤價`, `開盤價`
is `NaN` (line 286, otherwise `continue`), the bar is bullish
(`收盤價 > 開盤價`) and the volume is at least `1.5` times both of its own
volume moving averages (lines 291-293). -/
def dayQualifies (r : IndRow) : Bool :=
  match r.volume, r.volMA5, r.volMA10, r.closePrice, r.openPrice with
  | some v, some m5, some m10, some c, some o =>
      decide (o < c ∧ m5 * (3/2) ≤ v ∧ m10 * (3/2) ≤ v)
  | _, _, _, _, _ => false

/-- The multiplier computed at a hit day (line 297):
`成交張數 / max(Volume_MA5, Volume_MA10)`.  Only ever used on rows whose
three volume fields are present.  (ℚ division by `0` gives `0`; the float
code gives `NaN` for `0/0` — see the file header.) -/
def rowMultiplier (r : IndRow) : ℚ :=
  match r.volume, r.volMA5, r.volMA10 with
  | some v, some m5, some m10 => v / max m5 m10
  | _, _, _ => 0

/-- The signal-A scan of lines 284-299: `for i in range(3)` walks
`df.iloc[-1]`, `df.iloc[-2]`, `df.iloc[-3]` (here `r0`, `r1`, `r2`) and
`break`s at the first hit; days with missing fields or failing conditions
are passed over.  The function returns the hit row, from which the loop's
two outputs (`volume_condition_1_4_met`, `volume_multiplier_1_4_output`)
are derived below. -/
def scanHit (r0 r1 r2 : IndRow) : Option IndRow :=
  if dayQualifies r0 then some r0
  else if dayQualifies r1 then some r1
  else if dayQualifies r2 then some r2
  else none

/-- Flag `volume_condition_1_4_met` (lines 282, 298). -/
def volumeCondition14Met (r0 r1 r2 : IndRow) : Bool :=
  (scanHit r0 r1 r2).isSome

/-- Output `volume_multiplier_1_4_output` (lines 283, 297): `0.0` when the scan
finds no hit. -/
def volumeMultiplier14 (r0 r1 r2 : IndRow) : ℚ :=
  match scanHit r0 r1 r2 with
  | some r => rowMultiplier r
  | none => 0

/-- Flag `volume_condition_5_met` (lines 303-308): latest session only, both
volume moving averages present and the volume at least twice each. -/
def volumeCondition5Met (r : IndRow) : Bool :=
  match r.volume, r.volMA5, r.volMA10 with
  | some v, some m5, some m10 => decide (m5 * 2 ≤ v ∧ m10 * 2 ≤ v)
  | _, _, _ => false

/-- Output `volume_multiplier_5_output` (lines 304, 309): `0.0` unless the
condition-5 volume test passed. -/
def volumeMultiplier5 (r : IndRow) : ℚ :=
  if volumeCondition5Met r then rowMultiplier r else 0

/-- Gap `ma10_minus_ma5_pct` (line 278):
`(MA10 - MA5) / MA5 * 100` when `MA5` is present and nonzero, else
`float("inf")` (modelled `some ⊤`).  When `MA5` is present and nonzero but
`MA10` is `NaN`, the float expression evaluates to `NaN` (modelled by the
outer `none`); every comparison against it is then false. -/
def gapPct (r : IndRow) : Option (WithTop ℚ) :=
  match r.ma5 with
  | none => some ⊤
  | some a5 =>
      if a5 = 0 then some ⊤
      else
        match r.ma10 with
        | none => none
        | some a10 => some ((((a10 - a5) / a5 * 100 : ℚ) : WithTop ℚ))

/-- The test `0 <= ma10_minus_ma5_pct < 1` of lines 315 and 325; false for
the `NaN` case, and false for `inf` because `inf < 1` is false. -/
def gapIn01 (g : Option (WithTop ℚ)) : Bool :=
  match g with
  | some x => decide (0 ≤ x ∧ x < (1 : WithTop ℚ))
  | none => false

/-- Rule predicate `條件1` (lines 314-321). -/
def cond1 (r0 r1 : IndRow) (volA : Bool) : Bool :=
  volA && gapIn01 (gapPct r0) &&
    match r0.ma5, r0.ma10, r0.ma20, r1.ma5, r0.rsi with
    | some a5, some a10, some a20, some b5, some rs =>
        decide (a5 < a10 ∧ a10 < a20 ∧ b5 < a5 ∧ 49 ≤ rs)
    | _, _, _, _, _ => false

/-- Rule predicate `條件2` (lines 324-332). -/
def cond2 (r0 r1 : IndRow) (volA : Bool) : Bool :=
  volA && gapIn01 (gapPct r0) &&
    match r0.ma5, r0.ma10, r0.ma20, r1.ma5, r0.rsi, r1.rsi with
    | some a5, some a10, some a20, some b5, some rs, some brs =>
        decide (a5 < a10 ∧ a10 < a20 ∧ b5 < a5 ∧ rs < 49 ∧ brs < rs)
    | _, _, _, _, _, _ => false

/-- Rule predicate `條件3` (lines 335-342); the source tests
`MA5 > MA10` twice (lines 337-338), kept here verbatim. -/
def cond3 (r0 r1 : IndRow) (volA : Bool) : Bool :=
  volA &&
    match r0.ma5, r0.ma10, r0.ma20, r1.ma5, r1.ma10, r0.rsi with
    | some a5, some a10, some a20, some b5, some b10, some rs =>
        decide (a10 < a5 ∧ a10 < a5 ∧ a5 < a20 ∧ b5 ≤ b10 ∧ 50 ≤ rs)
    | _, _, _, _, _, _ => false

/-- Rule predicate `條件4` (lines 345-349). -/
def cond4 (r0 : IndRow) (volA : Bool) : Bool :=
  volA &&
    match r0.ma5, r0.ma10, r0.ma20, r0.rsi with
    | some a5, some a10, some a20, some rs =>
        decide (a10 < a5 ∧ a5 < a20 ∧ 50 ≤ rs)
    | _, _, _, _ => false

/-- Rule predicate `條件5` (lines 352-355). -/
def cond5 (r0 : IndRow) (sigB : Bool) : Bool :=
  sigB &&
    match r0.ma5, r0.ma20 with
    | some a5, some a20 => decide (a20 < a5)
    | _, _ => false

/-- List `conditions_met` (lines 311-355), in source order. -/
def conditionsMet (r0 r1 : IndRow) (volA sigB : Bool) : List Rule :=
  (if cond1 r0 r1 volA then [Rule.r1] else []) ++
  (if cond2 r0 r1 volA then [Rule.r2] else []) ++
  (if cond3 r0 r1 volA then [Rule.r3] else []) ++
  (if cond4 r0 volA then [Rule.r4] else []) ++
  (if cond5 r0 sigB then [Rule.r5] else [])

/-- The fields of `output_data` (lines 362-375) that the orchestrator
consumes; industry enrichment and string formatting live downstream. -/
structure StockResult where
  closePrice : Option ℚ
  conds : List Rule
  multQ : ℚ
  gap : Option (WithTop ℚ)
deriving DecidableEq

/-- The condition-evaluator core of `process_stock`, lines 270-378, for the
three most recent rows `r0 = df.iloc[-1]`, `r1 = df.iloc[-2]`,
`r2 = df.iloc[-3]`:
* lines 274-276: abort when the latest `成交張數` is `NaN` or below 200;
* lines 282-309: the two volume signals;
* lines 311-358: the five rule predicates, `None` when no rule fired;
* lines 362-375: the emitted record; `volume_multiplier` is the signal-B
  multiplier when `條件5` fired, else the signal-A multiplier. -/
def evalStock (r0 r1 r2 : IndRow) : Option StockResult :=
  match r0.volume with
  | none => none
  | some v =>
      if v < 200 then none
      else
        let volA := volumeCondition14Met r0 r1 r2
        let sigB := volumeCondition5Met r0
        let conds := conditionsMet r0 r1 volA sigB
        if conds.isEmpty then none
        else
          some { closePrice := r0.closePrice
                 conds := conds
                 multQ := if conds.contains Rule.r5 then volumeMultiplier5 r0
                          else volumeMultiplier14 r0 r1 r2
                 gap := gapPct r0 }

/-! ### Wilder RSI — `calculate_rsi`, lines 178-199.

`delta = close.diff()` gives `NaN` at index 0; `delta.where(delta > 0, 0.0)`
turns that `NaN` (and non-gains) into `0.0`, so the gain series starts with
`0` and continues with `max(delta, 0)`; symmetrically for losses.
`ewm(com = period - 1, adjust = False).mean()` is the recursion
`y₀ = x₀`, `yₜ = (1 - α) yₜ₋₁ + α xₜ` with `α = 1 / period`.
`rs = avg_gain / avg_loss`; when `avg_loss = 0` the float quotient is `inf`
(rsi exactly `100`) or `NaN` (caught by `fillna(100)`), so both zero-loss
regimes produce `100`.  `.round(2)` is numpy round-half-even at two
decimals, modelled exactly on rationals. -/

/-- Tail of the gain series: `max(cur - prev, 0)` for each session. -/
def gainsFrom (prev : ℚ) : List ℚ → List ℚ
  | [] => []
  | c :: cs => (if prev < c then c - prev else 0) :: gainsFrom c cs

/-- Series `gain = delta.where(delta > 0, 0.0)` (line 184); index 0 is `0`. -/
def gains : List ℚ → List ℚ
  | [] => []
  | c :: cs => 0 :: gainsFrom c cs

/-- Tail of the loss series: `max(prev - cur, 0)` for each session. -/
def lossesFrom (prev : ℚ) : List ℚ → List ℚ
  | [] => []
  | c :: cs => (if c < prev then prev - c else 0) :: lossesFrom c cs

/-- Series `loss = -delta.where(delta < 0, 0.0)` (line 185); index 0 is `0`. -/
def losses : List ℚ → List ℚ
  | [] => []
  | c :: cs => 0 :: lossesFrom c cs

/-- Continuation of `ewm(com, adjust=False).mean()` after a seed value. -/
def ewmaFrom (a prev : ℚ) : List ℚ → List ℚ
  | [] => []
  | x :: xs =>
      ((1 - a) * prev + a * x) :: ewmaFrom a ((1 - a) * prev + a * x) xs

/-- Smoothing `ewm(com = period-1, adjust=False).mean()` (lines 189-190), seeded from
the first observation. -/
def ewma (a : ℚ) : List ℚ → List ℚ
  | [] => []
  | x :: xs => x :: ewmaFrom a x xs

/-- Round half to even at integer precision (numpy rounding). -/
def rhe (q : ℚ) : ℤ :=
  if q - ⌊q⌋ < 1/2 then ⌊q⌋
  else if 1/2 < q - ⌊q⌋ then ⌊q⌋ + 1
  else if ⌊q⌋ % 2 = 0 then ⌊q⌋ else ⌊q⌋ + 1

/-- Rounding `.round(2)` on a rational. -/
def round2 (q : ℚ) : ℚ := (rhe (q * 100) : ℚ) / 100

/-- One point of lines 192-199: `rs = g / l`, `rsi = 100 - 100/(1+rs)`,
`fillna(100)` for the zero-loss regimes, then `.round(2)`. -/
def rsiPoint (g l : ℚ) : ℚ :=
  if l = 0 then 100 else round2 (100 - 100 / (1 + g / l))

/-- Function `calculate_rsi` (lines 178-199); the source's `period` defaults
to `14`. -/
def calculateRsi (closes : List ℚ) (period : ℕ) : List ℚ :=
  List.zipWith rsiPoint (ewma (1 / (period : ℚ)) (gains closes))
    (ewma (1 / (period : ℚ)) (losses closes))

/-! ### Month-history merge — `process_stock` line 247:
`pd.concat(df_all).drop_duplicates(subset=["日期"]).sort_values("日期")`. -/

/-- A parsed daily bar after `fetch_tpex_history` (lines 106-110): columns
`日期`, `收盤價`, `開盤價`, `成交張數`; rows with unparsable cells were
already dropped by `dropna` (line 110).  Dates are modelled as day
numbers. -/
structure DailyBar where
  date : ℕ
  closePrice : ℚ
  openPrice : ℚ
  volume : ℚ
deriving DecidableEq

/-- Deduplication `drop_duplicates(subset=["日期"])`: keep the first row carrying each
date, preserving order; `seen` accumulates the dates already kept. -/
def dropDupDates (seen : List ℕ) : List DailyBar → List DailyBar
  | [] => []
  | r :: rs =>
      if r.date ∈ seen then dropDupDates seen rs
      else r :: dropDupDates (r.date :: seen) rs

/-- The row order of `sort_values("日期")`. -/
def dateLE (a b : DailyBar) : Prop := a.date ≤ b.date

instance : DecidableRel dateLE :=
  fun a b => inferInstanceAs (Decidable (a.date ≤ b.date))

instance : IsTotal DailyBar dateLE :=
  ⟨fun a b => Nat.le_total a.date b.date⟩

instance : IsTrans DailyBar dateLE :=
  ⟨fun _ _ _ hab hbc => Nat.le_trans hab hbc⟩

/-- Line 247 for two monthly fragments.  After deduplication the dates are
unique, so any correct sort by date — pandas' unstable quicksort included —
produces the same row order as this insertion sort. -/
def mergeHistories (l1 l2 : List DailyBar) : List DailyBar :=
  List.insertionSort dateLE (dropDupDates [] (l1 ++ l2))

/-! ### Screening orchestrator — `analyze_tpex_stocks`, lines 201-448. -/

/-- One roster row produced by `fetch_tpex_stock_list` (lines 61-84). -/
structure RosterRow where
  stock_id : String
  name : String
deriving DecidableEq

/-- Record `output_data` (dict) of lines 362-375 as the orchestrator sees it:
`close_price` and `volume_multiplier` are already the formatted strings
(`f"{...:.2f}"`, lines 365 and 373-375); `conditions_met` is modelled as
the list of fired rules (the source stores the comma-joined identifiers,
and the `"條件5" in ...` substring test of line 390 agrees with list
membership because no rule identifier occurs inside another);
`ma10_minus_ma5` is the float of line 369, with `⊤` for `float("inf")`
(the latest `MA10` is present whenever a record is emitted, so no `NaN`
arises in this field). -/
structure OutputData where
  stock_id : String
  stock_name : String
  close_price : String
  conditions_met : List Rule
  industry : String
  industry_chain : String
  ma10_minus_ma5 : WithTop ℚ
  volume_multiplier : String
deriving DecidableEq

/-- Membership test `"條件5" in r.get("conditions_met", "")` test (line 390). -/
def hasRule5 (od : OutputData) : Bool :=
  od.conditions_met.contains Rule.r5

/-- Digits-only token value for Python `int(...)`. -/
def parseDigits : List Char → Option ℕ
  | [] => none
  | l =>
      if l.all (fun c => c.isDigit) then
        some (l.foldl (fun n c => n * 10 + (c.toNat - 48)) 0)
      else none

/-- Python `int(token)`: optional surrounding blanks, optional sign, at
least one digit (exotic forms such as underscore separators are outside
the inputs considered here). -/
def parseInt (l : List Char) : Option ℤ :=
  match (((l.dropWhile (· = ' ')).reverse.dropWhile (· = ' ')).reverse) with
  | '-' :: ds => (parseDigits ds).map (fun n => -(n : ℤ))
  | '+' :: ds => (parseDigits ds).map (fun n => (n : ℤ))
  | ds => (parseDigits ds).map (fun n => (n : ℤ))

/-- Split `year_month.split("/")` on the character list. -/
def splitSlash : List Char → List (List Char)
  | [] => [[]]
  | c :: cs =>
      if c = '/' then [] :: splitSlash cs
      else
        match splitSlash cs with
        | [] => [[c]]
        | g :: gs => (c :: g) :: gs

/-- Lines 206-213: `year, month = map(int, year_month.split("/"))` inside
`try/except`; a wrong number of fields or an unparsable token makes the
function log and `return` with no output. -/
def parseYearMonth (s : String) : Option (ℤ × ℤ) :=
  match (splitSlash s.toList).map parseInt with
  | [some y, some m] => some (y, m)
  | _ => none

/-- The two-key order realised by
`sort_values(by=["ma10_minus_ma5", "volume_multiplier"],
ascending=[True, False])` (line 408): gap ascending, ties broken by the
`volume_multiplier` STRING descending — the field was formatted before the
sort, so pandas compares strings by code points, exactly the order of
Lean's `String` instances. -/
def othersLE (a b : OutputData) : Prop :=
  a.ma10_minus_ma5 < b.ma10_minus_ma5 ∨
    (a.ma10_minus_ma5 = b.ma10_minus_ma5 ∧
      b.volume_multiplier ≤ a.volume_multiplier)

/-- The order of `sort_values(by="volume_multiplier", ascending=False)`
(line 429), again on the formatted string. -/
def cond5LE (a b : OutputData) : Prop :=
  b.volume_multiplier ≤ a.volume_multiplier

instance : DecidableRel othersLE :=
  fun _ _ => inferInstanceAs (Decidable (_ ∨ _))

instance : DecidableRel cond5LE :=
  fun _ _ => inferInstanceAs (Decidable (_ ≤ _))

instance : IsTotal OutputData othersLE :=
  ⟨fun a b => by
    unfold othersLE
    rcases lt_trichotomy a.ma10_minus_ma5 b.ma10_minus_ma5 with h | h | h
    · exact Or.inl (Or.inl h)
    · rcases le_total a.volume_multiplier b.volume_multiplier with hs | hs
      · exact Or.inr (Or.inr ⟨h.symm, hs⟩)
      · exact Or.inl (Or.inr ⟨h, hs⟩)
    · exact Or.inr (Or.inl h)⟩

instance : IsTrans OutputData othersLE :=
  ⟨fun a b c hab hbc => by
    unfold othersLE at *
    rcases hab with hab | ⟨hab, hab'⟩ <;> rcases hbc with hbc | ⟨hbc, hbc'⟩
    · exact Or.inl (lt_trans hab hbc)
    · exact Or.inl (hbc ▸ hab)
    · exact Or.inl (hab ▸ hbc)
    · exact Or.inr ⟨hab.trans hbc, le_trans hbc' hab'⟩⟩

instance : IsTotal OutputData cond5LE :=
  ⟨fun a b => le_total b.volume_multiplier a.volume_multiplier⟩

instance : IsTrans OutputData cond5LE :=
  ⟨fun _ _ _ hab hbc => le_trans hbc hab⟩

/-- The emitted results in roster order: `executor.map` (line 383)
preserves input order and the loop of lines 388-393 drops `None`
entries. -/
def collectResults (roster : List RosterRow)
    (pipeline : RosterRow → Option OutputData) : List OutputData :=
  (roster.map pipeline).filterMap id

/-- Orchestrator `analyze_tpex_stocks` (lines 201-448) with its collaborators
abstracted: `roster` is the outcome of `fetch_tpex_stock_list` (`none` for
a failed fetch, line 215), and `pipeline` is `process_stock` composed with
the history fetches and industry enrichment.  The result is the pair
(others table, condition-5 table) as ordered row lists; the source writes
each as a CSV with a header, emitting a placeholder line when a partition
is empty — still a produced table (lines 405-445).  `none` models "no
output file produced": the early `return` on a malformed `year_month`
(lines 208-213) or missing/empty roster (lines 215-219), and the uncaught
`calendar.monthrange` / `datetime` exception raised inside
`get_latest_trade_date` (lines 50-59, called at line 221) when the parsed
month lies outside 1..12 or the year outside 1..9999. -/
def analyze (year_month : String) (roster : Option (List RosterRow))
    (pipeline : RosterRow → Option OutputData) :
    Option (List OutputData × List OutputData) :=
  match parseYearMonth year_month with
  | none => none
  | some (y, m) =>
      match roster with
      | none => none
      | some rows =>
          if rows.isEmpty then none
          else if y < 1 ∨ 9999 < y ∨ m < 1 ∨ 12 < m then none
          else
            let results := collectResults rows pipeline
            some (List.insertionSort othersLE
                    (results.filter (fun r => !(hasRule5 r))),
                  List.insertionSort cond5LE
                    (results.filter (fun r => hasRule5 r)))

/-- Fractional part of a formatted decimal string. -/
def fracVal (cs : List Char) : ℚ :=
  ((cs.foldl (fun n c => n * 10 + (c.toNat - 48)) 0 : ℕ) : ℚ) / 10 ^ cs.length

/-- Accumulator pass over the characters of a formatted decimal. -/
def decValAux : ℕ → List Char → ℚ
  | acc, [] => (acc : ℚ)
  | acc, c :: cs =>
      if c = '.' then (acc : ℚ) + fracVal cs
      else decValAux (acc * 10 + (c.toNat - 48)) cs

/-- The numeric value denoted by a formatted decimal string such as
`"9.00"`; used only to state the numeric reading of `volume_multiplier` in
claim C1. -/
def decVal (s : String) : ℚ := decValAux 0 s.toList

/-! Concrete indicator rows used by the closed witness and counterexample
statements below.  Each block is used by a single claim. -/

/-- Scan day `df.iloc[-1]` with a missing `Volume_MA5` cell: skipped by the
signal-A scan. -/
def c3day0 : IndRow :=
  { closePrice := some 10, openPrice := some 9, volume := some 500,
    volMA5 := none, volMA10 := some 100, ma5 := none, ma10 := none,
    ma20 := none, rsi := none }

/-- Scan day `df.iloc[-2]`: a qualifying bullish volume-breakout day. -/
def c3day1 : IndRow :=
  { closePrice := some 12, openPrice := some 11, volume := some 300,
    volMA5 := some 100, volMA10 := some 100, ma5 := none, ma10 := none,
    ma20 := none, rsi := none }

/-- Scan day `df.iloc[-3]`: also qualifying, but never reached. -/
def c3day2 : IndRow :=
  { closePrice := some 12, openPrice := some 11, volume := some 400,
    volMA5 := some 100, volMA10 := some 100, ma5 := none, ma10 := none,
    ma20 := none, rsi := none }

/-- Latest row with `成交張數 = 200` lots exactly and every other rule-1
condition satisfied (gap `0.5%`, `MA5 < MA10 < MA20`, `MA5` rising,
`RSI = 60`). -/
def c4day0 : IndRow :=
  { closePrice := some 10, openPrice := some 9, volume := some 200,
    volMA5 := some 100, volMA10 := some 100, ma5 := some 100,
    ma10 := some (201/2), ma20 := some 110, rsi := some 60 }

/-- One day ago for the rule-1 instance: `MA5` was `99`, so `MA5` rose. -/
def c4day1 : IndRow :=
  { closePrice := some 9, openPrice := some 9, volume := some 100,
    volMA5 := some 100, volMA10 := some 100, ma5 := some 99,
    ma10 := some 100, ma20 := some 110, rsi := some 50 }

/-- Latest row with `成交張數 = 199` lots: below the 200-lot gate. -/
def c4day0low : IndRow :=
  { closePrice := some 10, openPrice := some 9, volume := some 199,
    volMA5 := some 100, volMA10 := some 100, ma5 := some 100,
    ma10 := some (201/2), ma20 := some 110, rsi := some 60 }

/-- Latest row for the rule-5 witness: volume `400` is at least twice both
volume moving averages (`100`, `150`) and `MA5 = 12 > MA20 = 11`. -/
def c5day0 : IndRow :=
  { closePrice := some 12, openPrice := some 11, volume := some 400,
    volMA5 := some 100, volMA10 := some 150, ma5 := some 12,
    ma10 := some 10, ma20 := some 11, rsi := some 60 }

/-- Latest row for the rule-3 witness: a same-day `MA5`/`MA10` crossover
with `MA10 < MA5 < MA20`, `RSI = 55` and a qualifying breakout bar. -/
def c9day0 : IndRow :=
  { closePrice := some 10, openPrice := some 9, volume := some 300,
    volMA5 := some 100, volMA10 := some 100, ma5 := some (21/2),
    ma10 := some 10, ma20 := some 11, rsi := some 55 }

/-- One day ago for the rule-3 witness: `MA5 ≤ MA10` still held. -/
def c9day1 : IndRow :=
  { closePrice := some 9, openPrice := some 9, volume := some 100,
    volMA5 := some 100, volMA10 := some 100, ma5 := some 9,
    ma10 := some (19/2), ma20 := some 11, rsi := some 50 }

/-- Latest row of the C10 counterexample: passes the 200-lot gate, fails the
signal-A candle test itself, matches rule 4 on its moving averages, and its
large `Volume_MA5` keeps signal B off. -/
def c10day0 : IndRow :=
  { closePrice := some 10, openPrice := some 11, volume := some 200,
    volMA5 := some 1000, volMA10 := some 1000, ma5 := some 10,
    ma10 := some 9, ma20 := some 11, rsi := some 60 }

/-- One day ago in the C10 counterexample: a bearish bar, skipped. -/
def c10day1 : IndRow :=
  { closePrice := some 5, openPrice := some 6, volume := some 0,
    volMA5 := some 0, volMA10 := some 0, ma5 := none, ma10 := none,
    ma20 := none, rsi := some 1 }

/-- Two days ago in the C10 counterexample: a zero-volume bullish bar whose
volume moving averages are both `0`, so it qualifies (`0 ≥ 1.5 × 0`) and the
reported multiplier is the degenerate `0 / max(0, 0)` (float `NaN`,
modelled `0`). -/
def c10day2 : IndRow :=
  { closePrice := some 5, openPrice := some 4, volume := some 0,
    volMA5 := some 0, volMA10 := some 0, ma5 := none, ma10 := none,
    ma20 := none, rsi := none }

/-- Latest row for the C10 witness: rule 4 fires and the signal-A hit is the
latest day itself with multiplier `600 / max(200, 300) = 2`. -/
def c10wday0 : IndRow :=
  { closePrice := some 10, openPrice := some 9, volume := some 600,
    volMA5 := some 200, volMA10 := some 300, ma5 := some 10,
    ma10 := some 9, ma20 := some 11, rsi := some 60 }

/-- Roster rows and results for the C1 sort instance: two "others" records
with equal gap `0` whose formatted multipliers are `"9.00"` and
`"10.00"`. -/
def c1rowA : RosterRow := { stock_id := "7001", name := "A" }

def c1rowB : RosterRow := { stock_id := "7002", name := "B" }

def c1odA : OutputData :=
  { stock_id := "7001", stock_name := "A", close_price := "10.00",
    conditions_met := [Rule.r4], industry := "N/A", industry_chain := "N/A",
    ma10_minus_ma5 := (0 : WithTop ℚ), volume_multiplier := "9.00" }

def c1odB : OutputData :=
  { stock_id := "7002", stock_name := "B", close_price := "20.00",
    conditions_met := [Rule.r4], industry := "N/A", industry_chain := "N/A",
    ma10_minus_ma5 := (0 : WithTop ℚ), volume_multiplier := "10.00" }

/-- The per-instrument pipeline feeding the C1 instance. -/
def c1pipe (s : RosterRow) : Option OutputData :=
  if s.stock_id = "7001" then some c1odA else some c1odB

/-- Roster rows and results for the C2 partition instance: one record
matching rules 4 and 5, one matching rule 1 only. -/
def c2rowA : RosterRow := { stock_id := "8001", name := "C" }

def c2rowB : RosterRow := { stock_id := "8002", name := "D" }

def c2odA : OutputData :=
  { stock_id := "8001", stock_name := "C", close_price := "30.00",
    conditions_met := [Rule.r4, Rule.r5], industry := "N/A",
    industry_chain := "N/A", ma10_minus_ma5 := ((-2 : ℚ) : WithTop ℚ),
    volume_multiplier := "2.50" }

def c2odB : OutputData :=
  { stock_id := "8002", stock_name := "D", close_price := "40.00",
    conditions_met := [Rule.r1], industry := "N/A", industry_chain := "N/A",
    ma10_minus_ma5 := ((1/2 : ℚ) : WithTop ℚ), volume_multiplier := "1.60" }

/-- The per-instrument pipeline feeding the C2 instance. -/
def c2pipe (s : RosterRow) : Option OutputData :=
  if s.stock_id = "8001" then some c2odA else some c2odB

/-- A roster row for the C8 instance. -/
def c8row : RosterRow := { stock_id := "9001", name := "E" }

/-! Helper lemmas about the evaluator. -/

theorem mem_ite_single {a b : Rule} {c : Bool} :
    a ∈ (if c then [b] else ([] : List Rule)) ↔ c = true ∧ a = b := by
  cases c <;> simp

theorem r1_mem_conditionsMet (r0 r1 : IndRow) (volA sigB : Bool) :
    Rule.r1 ∈ conditionsMet r0 r1 volA sigB ↔ cond1 r0 r1 volA = true := by
  simp [conditionsMet, mem_ite_single]

theorem r3_mem_conditionsMet (r0 r1 : IndRow) (volA sigB : Bool) :
    Rule.r3 ∈ conditionsMet r0 r1 volA sigB ↔ cond3 r0 r1 volA = true := by
  simp [conditionsMet, mem_ite_single]

theorem r4_mem_conditionsMet (r0 r1 : IndRow) (volA sigB : Bool) :
    Rule.r4 ∈ conditionsMet r0 r1 volA sigB ↔ cond4 r0 volA = true := by
  simp [conditionsMet, mem_ite_single]

theorem r5_mem_conditionsMet (r0 r1 : IndRow) (volA sigB : Bool) :
    Rule.r5 ∈ conditionsMet r0 r1 volA sigB ↔ cond5 r0 sigB = true := by
  simp [conditionsMet, mem_ite_single]

theorem scanHit_qualifies {r0 r1 r2 r : IndRow} (h : scanHit r0 r1 r2 = some r) :
    dayQualifies r = true := by
  unfold scanHit at h
  split_ifs at h with h0 h1 h2 <;> simp_all

/-- Inversion of `evalStock`: what a produced record looks like. -/
theorem evalStock_some_iff (r0 r1 r2 : IndRow) {res : StockResult} :
    evalStock r0 r1 r2 = some res ↔
      ∃ v, r0.volume = some v ∧ ¬ v < 200 ∧
        conditionsMet r0 r1 (volumeCondition14Met r0 r1 r2) (volumeCondition5Met r0) ≠ [] ∧
        res = { closePrice := r0.closePrice
                conds := conditionsMet r0 r1 (volumeCondition14Met r0 r1 r2) (volumeCondition5Met r0)
                multQ := if (conditionsMet r0 r1 (volumeCondition14Met r0 r1 r2)
                              (volumeCondition5Met r0)).contains Rule.r5
                         then volumeMultiplier5 r0 else volumeMultiplier14 r0 r1 r2
                gap := gapPct r0 } := by
  unfold evalStock
  cases hv : r0.volume with
  | none => simp
  | some v =>
      by_cases h1 : v < 200
      · simp only [h1, if_true, ite_true]
        refine iff_of_false (fun h => Option.noConfusion h) ?_
        rintro ⟨w, hw, hlt, -, -⟩
        rw [Option.some.injEq] at hw
        exact hlt (hw ▸ h1)
      · simp only [h1, if_false, ite_false]
        by_cases h2 : conditionsMet r0 r1 (volumeCondition14Met r0 r1 r2)
            (volumeCondition5Met r0) = []
        · refine iff_of_false ?_ ?_
          · simp [h2]
          · rintro ⟨w, -, -, hne, -⟩
            exact hne h2
        · rw [if_neg (by simpa [List.isEmpty_iff] using h2)]
          constructor
          · intro h
            rw [Option.some.injEq] at h
            exact ⟨v, rfl, h1, h2, h.symm⟩
          · rintro ⟨w, hw, -, -, hres⟩
            rw [hres]

/-- Field-level characterisation of a scan hit. -/
theorem dayQualifies_iff (r : IndRow) :
    dayQualifies r = true ↔
      ∃ c o v m5 m10, r.closePrice = some c ∧ r.openPrice = some o ∧
        r.volume = some v ∧ r.volMA5 = some m5 ∧ r.volMA10 = some m10 ∧
        o < c ∧ m5 * (3/2) ≤ v ∧ m10 * (3/2) ≤ v := by
  unfold dayQualifies
  rcases hv : r.volume with _ | v <;> rcases h5 : r.volMA5 with _ | m5 <;>
    rcases h10 : r.volMA10 with _ | m10 <;> rcases hc : r.closePrice with _ | c <;>
      rcases ho : r.openPrice with _ | o <;> simp

/-- Field-level characterisation of the condition-5 volume test. -/
theorem volumeCondition5Met_iff (r : IndRow) :
    volumeCondition5Met r = true ↔
      ∃ v m5 m10, r.volume = some v ∧ r.volMA5 = some m5 ∧
        r.volMA10 = some m10 ∧ m5 * 2 ≤ v ∧ m10 * 2 ≤ v := by
  unfold volumeCondition5Met
  rcases hv : r.volume with _ | v <;> rcases h5 : r.volMA5 with _ | m5 <;>
    rcases h10 : r.volMA10 with _ | m10 <;> simp

/-- Field-level characterisation of `條件5`. -/
theorem cond5_iff (r0 : IndRow) (sigB : Bool) :
    cond5 r0 sigB = true ↔
      sigB = true ∧ ∃ a5 a20, r0.ma5 = some a5 ∧ r0.ma20 = some a20 ∧ a20 < a5 := by
  unfold cond5
  rcases h5 : r0.ma5 with _ | a5 <;> rcases h20 : r0.ma20 with _ | a20 <;> simp

/-- Predicate `條件3` subsumes `條件4`. -/
theorem cond3_imp_cond4 {r0 r1 : IndRow} {volA : Bool}
    (h : cond3 r0 r1 volA = true) : cond4 r0 volA = true := by
  unfold cond3 at h
  unfold cond4
  rcases h5 : r0.ma5 with _ | a5 <;> rcases h10 : r0.ma10 with _ | a10 <;>
    rcases h20 : r0.ma20 with _ | a20 <;> rcases hr : r0.rsi with _ | rs <;>
      rcases hb5 : r1.ma5 with _ | b5 <;> rcases hb10 : r1.ma10 with _ | b10 <;>
        simp_all

/-! Claim theorems about the condition evaluator. -/

/-- Claim C3: Signal A scans the last three sessions from most recent
backward (`r0 = df.iloc[-1]`, `r1 = df.iloc[-2]`, `r2 = df.iloc[-3]`); a
session qualifies exactly when its close, open, volume and both volume MAs
are present, `close > open`, `volume ≥ 1.5 × vol_ma5` and
`volume ≥ 1.5 × vol_ma10`; the first qualifying session in scan order is
the hit and the scan stops there; a session that fails to qualify — in
particular one with a missing field — is skipped without stopping the
scan; the multiplier is the hit session's `volume / max(vol_ma5,
vol_ma10)`; and when no scanned session qualifies, signal A is false. -/
theorem claim_C3_signalA (r0 r1 r2 r : IndRow) :
    (dayQualifies r = true ↔
      ∃ c o v m5 m10, r.closePrice = some c ∧ r.openPrice = some o ∧
        r.volume = some v ∧ r.volMA5 = some m5 ∧ r.volMA10 = some m10 ∧
        o < c ∧ m5 * (3/2) ≤ v ∧ m10 * (3/2) ≤ v) ∧
    (dayQualifies r0 = true → scanHit r0 r1 r2 = some r0) ∧
    (dayQualifies r0 = false → dayQualifies r1 = true →
      scanHit r0 r1 r2 = some r1) ∧
    (dayQualifies r0 = false → dayQualifies r1 = false →
      dayQualifies r2 = true → scanHit r0 r1 r2 = some r2) ∧
    (dayQualifies r0 = false → dayQualifies r1 = false →
      dayQualifies r2 = false → volumeCondition14Met r0 r1 r2 = false) ∧
    (scanHit r0 r1 r2 = some r →
      ∀ v m5 m10, r.volume = some v → r.volMA5 = some m5 →
        r.volMA10 = some m10 → volumeMultiplier14 r0 r1 r2 = v / max m5 m10) := by
  refine ⟨dayQualifies_iff r, ?_, ?_, ?_, ?_, ?_⟩
  · intro h0
    simp [scanHit, h0]
  · intro h0 h1
    simp [scanHit, h0, h1]
  · intro h0 h1 h2
    simp [scanHit, h0, h1, h2]
  · intro h0 h1 h2
    simp [volumeCondition14Met, scanHit, h0, h1, h2]
  · intro hs v m5 m10 hv h5 h10
    unfold volumeMultiplier14
    rw [hs]
    simp [rowMultiplier, hv, h5, h10]

/-- Witness for C3: the latest scanned day has a missing `Volume_MA5` and
is skipped without stopping the scan; the hit is the second scanned day,
with multiplier `300 / max(100, 100) = 3`. -/
theorem claim_C3_signalA_witness :
    scanHit c3day0 c3day1 c3day2 = some c3day1 ∧
      volumeMultiplier14 c3day0 c3day1 c3day2 = 3 := by
  have h := claim_C3_signalA c3day0 c3day1 c3day2 c3day1
  have h0 : dayQualifies c3day0 = false := rfl
  have hq : dayQualifies c3day1 = true := by norm_num [dayQualifies, c3day1]
  have hs := h.2.2.1 h0 hq
  refine ⟨hs, ?_⟩
  rw [h.2.2.2.2.2 hs 300 100 100 rfl rfl rfl, max_self]
  norm_num

/-- Claim C4: When the latest session's volume is missing or below 200 lots
the evaluator emits nothing, whatever the other fields hold; and when the
latest volume is exactly 200 lots and all the remaining rule-1 conditions
hold (signal A, the gap bound, the MA ordering, rising `MA5`, `RSI ≥ 49`,
i.e. `cond1`), rule 1 matches. -/
theorem claim_C4_volumeGate (r0 r1 r2 : IndRow) :
    ((r0.volume = none ∨ ∃ v, r0.volume = some v ∧ v < 200) →
      evalStock r0 r1 r2 = none) ∧
    (r0.volume = some 200 →
      cond1 r0 r1 (volumeCondition14Met r0 r1 r2) = true →
      ∃ res, evalStock r0 r1 r2 = some res ∧ Rule.r1 ∈ res.conds) := by
  constructor
  · rintro (hn | ⟨v, hv, hlt⟩)
    · unfold evalStock
      rw [hn]
    · unfold evalStock
      rw [hv]
      simp only [hlt, if_true, ite_true]
  · intro hv hc1
    have hmem : Rule.r1 ∈ conditionsMet r0 r1 (volumeCondition14Met r0 r1 r2)
        (volumeCondition5Met r0) :=
      (r1_mem_conditionsMet r0 r1 (volumeCondition14Met r0 r1 r2)
        (volumeCondition5Met r0)).mpr hc1
    exact ⟨_, (evalStock_some_iff r0 r1 r2).mpr
      ⟨200, hv, by norm_num, List.ne_nil_of_mem hmem, rfl⟩, hmem⟩

/-- Witness for C4: a latest session with volume 199 yields no record; the
same instrument with volume 200 and every other rule-1 condition satisfied
matches rule 1. -/
theorem claim_C4_volumeGate_witness :
    evalStock c4day0low c4day1 c4day1 = none ∧
      ∃ res, evalStock c4day0 c4day1 c4day1 = some res ∧ Rule.r1 ∈ res.conds := by
  constructor
  · exact (claim_C4_volumeGate c4day0low c4day1 c4day1).1
      (Or.inr ⟨199, rfl, by norm_num⟩)
  · refine (claim_C4_volumeGate c4day0 c4day1 c4day1).2 rfl ?_
    norm_num [cond1, gapIn01, gapPct, volumeCondition14Met, scanHit,
      dayQualifies, c4day0, c4day1]

/-- Claim C5: Given an emitted record, rule 5 is among its matched rules iff
the signal-B volume test holds at the latest session (volume at least twice
each of the two present volume MAs) and `ma5 > ma20` there; signal A plays
no role.  In particular a latest session whose volume is only `1.8×` both
volume MAs (with positive MAs) never contributes rule 5. -/
theorem claim_C5_rule5 (r0 r1 r2 : IndRow) :
    (volumeCondition5Met r0 = true ↔
      ∃ v m5 m10, r0.volume = some v ∧ r0.volMA5 = some m5 ∧
        r0.volMA10 = some m10 ∧ m5 * 2 ≤ v ∧ m10 * 2 ≤ v) ∧
    (∀ res, evalStock r0 r1 r2 = some res →
      (Rule.r5 ∈ res.conds ↔
        volumeCondition5Met r0 = true ∧
          ∃ a5 a20, r0.ma5 = some a5 ∧ r0.ma20 = some a20 ∧ a20 < a5)) ∧
    (∀ v m5 m10, r0.volume = some v → r0.volMA5 = some m5 →
      r0.volMA10 = some m10 → 0 < m5 → v = m5 * (9/5) → v = m10 * (9/5) →
      ∀ res, evalStock r0 r1 r2 = some res → Rule.r5 ∉ res.conds) := by
  have key : ∀ res, evalStock r0 r1 r2 = some res →
      (Rule.r5 ∈ res.conds ↔
        volumeCondition5Met r0 = true ∧
          ∃ a5 a20, r0.ma5 = some a5 ∧ r0.ma20 = some a20 ∧ a20 < a5) := by
    intro res h
    rcases (evalStock_some_iff r0 r1 r2).mp h with ⟨v, -, -, -, hres⟩
    subst hres
    show Rule.r5 ∈ conditionsMet r0 r1 (volumeCondition14Met r0 r1 r2)
        (volumeCondition5Met r0) ↔ _
    rw [r5_mem_conditionsMet, cond5_iff]
  refine ⟨volumeCondition5Met_iff r0, key, ?_⟩
  intro v m5 m10 hv h5 h10 hm5pos hvm5 hvm10 res h hr5
  rcases ((key res h).mp hr5).1 with hsig
  rcases (volumeCondition5Met_iff r0).mp hsig with
    ⟨v', m5', m10', hv', h5', h10', hle5, hle10⟩
  rw [hv] at hv'
  rw [h5] at h5'
  cases Option.some.inj hv'
  cases Option.some.inj h5'
  nlinarith [hle5]

/-- Witness for C5: a latest session with volume 400, volume MAs 100 and
150, and `MA5 = 12 > MA20 = 11` produces a record whose rules include
rule 5. -/
theorem claim_C5_rule5_witness :
    ∃ res, evalStock c5day0 c5day0 c5day0 = some res ∧ Rule.r5 ∈ res.conds := by
  have hsig : volumeCondition5Met c5day0 = true := by
    norm_num [volumeCondition5Met, c5day0]
  have hc5 : cond5 c5day0 (volumeCondition5Met c5day0) = true := by
    rw [cond5_iff]
    exact ⟨hsig, 12, 11, rfl, rfl, by norm_num⟩
  have hmem : Rule.r5 ∈ conditionsMet c5day0 c5day0
      (volumeCondition14Met c5day0 c5day0 c5day0) (volumeCondition5Met c5day0) :=
    (r5_mem_conditionsMet c5day0 c5day0 _ _).mpr hc5
  have hres := (evalStock_some_iff c5day0 c5day0 c5day0).mpr
    ⟨400, rfl, by norm_num, List.ne_nil_of_mem hmem, rfl⟩
  exact ⟨_, hres, ((claim_C5_rule5 c5day0 c5day0 c5day0).2.1 _ hres).mpr
    ⟨hsig, 12, 11, rfl, rfl, by norm_num⟩⟩

/-- Claim C9: Rule 3's predicate strictly subsumes rule 4's (both need
signal A, the `ma10 < ma5 < ma20` ordering with all three MAs present and
`rsi14 ≥ 50`), so an emitted record never contains rule 3 without
rule 4. -/
theorem claim_C9_rule3_subsumes (r0 r1 r2 : IndRow) (res : StockResult)
    (h : evalStock r0 r1 r2 = some res) (h3 : Rule.r3 ∈ res.conds) :
    Rule.r4 ∈ res.conds := by
  rcases (evalStock_some_iff r0 r1 r2).mp h with ⟨v, -, -, -, hres⟩
  subst hres
  replace h3 : Rule.r3 ∈ conditionsMet r0 r1 (volumeCondition14Met r0 r1 r2)
      (volumeCondition5Met r0) := h3
  show Rule.r4 ∈ conditionsMet r0 r1 (volumeCondition14Met r0 r1 r2)
      (volumeCondition5Met r0)
  rw [r3_mem_conditionsMet] at h3
  rw [r4_mem_conditionsMet]
  exact cond3_imp_cond4 h3

/-- Witness for C9: a concrete same-day crossover instrument on which
rule 3 fires, and — through the claim — rule 4 as well. -/
theorem claim_C9_rule3_subsumes_witness :
    ∃ res, evalStock c9day0 c9day1 c9day1 = some res ∧
      Rule.r3 ∈ res.conds ∧ Rule.r4 ∈ res.conds := by
  have hc3 : cond3 c9day0 c9day1 (volumeCondition14Met c9day0 c9day1 c9day1) = true := by
    norm_num [cond3, volumeCondition14Met, scanHit, dayQualifies, c9day0, c9day1]
  have hmem : Rule.r3 ∈ conditionsMet c9day0 c9day1
      (volumeCondition14Met c9day0 c9day1 c9day1) (volumeCondition5Met c9day0) :=
    (r3_mem_conditionsMet c9day0 c9day1 _ _).mpr hc3
  have hres := (evalStock_some_iff c9day0 c9day1 c9day1).mpr
    ⟨300, rfl, by norm_num, List.ne_nil_of_mem hmem, rfl⟩
  exact ⟨_, hres, hmem,
    claim_C9_rule3_subsumes c9day0 c9day1 c9day1 _ hres hmem⟩

/-- Claim C10, amended: An emitted record whose rules include rule 5
reports `multiplier_b ≥ 2` provided the latest session's
`max(vol_ma5, vol_ma10)` is positive, and a record matching only rules
1–4 reports `multiplier_a ≥ 1.5` provided the qualifying (hit) session's
`max(vol_ma5, vol_ma10)` is positive; when both volume MAs of the relevant
session are zero the reported multiplier is instead the degenerate
division-by-zero value (float `NaN` in the source, `0` here). -/
theorem claim_C10_multiplier_bounds (r0 r1 r2 : IndRow) (res : StockResult)
    (h : evalStock r0 r1 r2 = some res) :
    (Rule.r5 ∈ res.conds → ∀ m5 m10, r0.volMA5 = some m5 →
      r0.volMA10 = some m10 → 0 < max m5 m10 → 2 ≤ res.multQ) ∧
    (Rule.r5 ∉ res.conds → ∀ r m5 m10, scanHit r0 r1 r2 = some r →
      r.volMA5 = some m5 → r.volMA10 = some m10 → 0 < max m5 m10 →
      3/2 ≤ res.multQ) := by
  rcases (evalStock_some_iff r0 r1 r2).mp h with ⟨v, hv, -, -, hres⟩
  subst hres
  constructor
  · intro h5 m5 m10 hm5 hm10 hpos
    replace h5 : Rule.r5 ∈ conditionsMet r0 r1 (volumeCondition14Met r0 r1 r2)
        (volumeCondition5Met r0) := h5
    have hcont : (conditionsMet r0 r1 (volumeCondition14Met r0 r1 r2)
        (volumeCondition5Met r0)).contains Rule.r5 = true := List.elem_iff.mpr h5
    show (2 : ℚ) ≤ if (conditionsMet r0 r1 (volumeCondition14Met r0 r1 r2)
        (volumeCondition5Met r0)).contains Rule.r5 then volumeMultiplier5 r0
      else volumeMultiplier14 r0 r1 r2
    rw [if_pos hcont]
    have hsig : volumeCondition5Met r0 = true := by
      have hc5 := (r5_mem_conditionsMet r0 r1 (volumeCondition14Met r0 r1 r2)
        (volumeCondition5Met r0)).mp h5
      exact ((cond5_iff r0 (volumeCondition5Met r0)).mp hc5).1
    rcases (volumeCondition5Met_iff r0).mp hsig with
      ⟨v', m5', m10', hv', h5', h10', hle5, hle10⟩
    rw [hv] at hv'
    rw [hm5] at h5'
    rw [hm10] at h10'
    cases Option.some.inj hv'
    cases Option.some.inj h5'
    cases Option.some.inj h10'
    rw [volumeMultiplier5, if_pos hsig]
    have hrm : rowMultiplier r0 = v / max m5 m10 := by
      simp [rowMultiplier, hv, hm5, hm10]
    rw [hrm, le_div_iff₀ hpos]
    rcases max_choice m5 m10 with hmx | hmx <;> rw [hmx] <;> linarith
  · intro h5 r m5 m10 hscan hm5 hm10 hpos
    replace h5 : Rule.r5 ∉ conditionsMet r0 r1 (volumeCondition14Met r0 r1 r2)
        (volumeCondition5Met r0) := h5
    have hcont : ¬ ((conditionsMet r0 r1 (volumeCondition14Met r0 r1 r2)
        (volumeCondition5Met r0)).contains Rule.r5 = true) :=
      fun hc => h5 (List.elem_iff.mp hc)
    show (3/2 : ℚ) ≤ if (conditionsMet r0 r1 (volumeCondition14Met r0 r1 r2)
        (volumeCondition5Met r0)).contains Rule.r5 then volumeMultiplier5 r0
      else volumeMultiplier14 r0 r1 r2
    rw [if_neg hcont]
    have hmm : volumeMultiplier14 r0 r1 r2 = rowMultiplier r := by
      unfold volumeMultiplier14
      rw [hscan]
    rw [hmm]
    rcases (dayQualifies_iff r).mp (scanHit_qualifies hscan) with
      ⟨c, o, w, m5', m10', -, -, hw, h5', h10', -, hb5, hb10⟩
    rw [hm5] at h5'
    rw [hm10] at h10'
    cases Option.some.inj h5'
    cases Option.some.inj h10'
    have hrm : rowMultiplier r = w / max m5 m10 := by
      simp [rowMultiplier, hw, hm5, hm10]
    rw [hrm, le_div_iff₀ hpos]
    rcases max_choice m5 m10 with hmx | hmx <;> rw [hmx] <;> linarith

/-- Witness for C10 (amended): an instrument matching only rule 4 whose
hit session has positive volume MAs reports multiplier
`600 / max(200, 300) = 2 ≥ 1.5`. -/
theorem claim_C10_multiplier_bounds_witness :
    ∃ res, evalStock c10wday0 c10wday0 c10wday0 = some res ∧
      Rule.r5 ∉ res.conds ∧ (3/2 : ℚ) ≤ res.multQ := by
  have hc4 : cond4 c10wday0 (volumeCondition14Met c10wday0 c10wday0 c10wday0) = true := by
    norm_num [cond4, volumeCondition14Met, scanHit, dayQualifies, c10wday0]
  have hmem : Rule.r4 ∈ conditionsMet c10wday0 c10wday0
      (volumeCondition14Met c10wday0 c10wday0 c10wday0)
      (volumeCondition5Met c10wday0) :=
    (r4_mem_conditionsMet c10wday0 c10wday0 _ _).mpr hc4
  have hres := (evalStock_some_iff c10wday0 c10wday0 c10wday0).mpr
    ⟨600, rfl, by norm_num, List.ne_nil_of_mem hmem, rfl⟩
  have hno5 : Rule.r5 ∉ conditionsMet c10wday0 c10wday0
      (volumeCondition14Met c10wday0 c10wday0 c10wday0)
      (volumeCondition5Met c10wday0) := by
    rw [r5_mem_conditionsMet, cond5_iff]
    rintro ⟨-, a5, a20, ha5, ha20, hlt⟩
    cases Option.some.inj ha5
    cases Option.some.inj ha20
    norm_num at hlt
  have hscan : scanHit c10wday0 c10wday0 c10wday0 = some c10wday0 := by
    norm_num [scanHit, dayQualifies, c10wday0]
  exact ⟨_, hres, hno5,
    (claim_C10_multiplier_bounds c10wday0 c10wday0 c10wday0 _ hres).2 hno5
      c10wday0 200 300 hscan rfl rfl (by norm_num)⟩

/-- Counterexample to claim C10 as stated: the signal-A hit can be a
zero-volume session whose volume MAs are both zero (`0 ≥ 1.5 × 0` holds
and the bar is bullish); the emitted record matches only rule 4 and its
multiplier is the degenerate `0 / max(0, 0)` — float `NaN` in the source,
`0` in the embedding — not `≥ 1.5`. -/
theorem claim_C10_counterexample :
    ∃ res, evalStock c10day0 c10day1 c10day2 = some res ∧
      Rule.r5 ∉ res.conds ∧ res.multQ < 3/2 := by
  have hconds : conditionsMet c10day0 c10day1
      (volumeCondition14Met c10day0 c10day1 c10day2)
      (volumeCondition5Met c10day0) = [Rule.r4] := by
    norm_num [conditionsMet, cond1, cond2, cond3, cond4, cond5, gapIn01,
      gapPct, volumeCondition14Met, volumeCondition5Met, scanHit,
      dayQualifies, c10day0, c10day1, c10day2]
  have hres := (evalStock_some_iff c10day0 c10day1 c10day2).mpr
    ⟨200, rfl, by norm_num, by rw [hconds]; exact fun hx => List.noConfusion hx, rfl⟩
  refine ⟨_, hres, ?_, ?_⟩
  · show Rule.r5 ∉ conditionsMet c10day0 c10day1
      (volumeCondition14Met c10day0 c10day1 c10day2)
      (volumeCondition5Met c10day0)
    rw [hconds]
    simp
  · show (if (conditionsMet c10day0 c10day1
        (volumeCondition14Met c10day0 c10day1 c10day2)
        (volumeCondition5Met c10day0)).contains Rule.r5
      then volumeMultiplier5 c10day0
      else volumeMultiplier14 c10day0 c10day1 c10day2) < 3/2
    rw [hconds]
    rw [if_neg (show ¬ (([Rule.r4].contains Rule.r5) = true) by decide)]
    norm_num [volumeMultiplier14, scanHit, dayQualifies, rowMultiplier,
      c10day0, c10day1, c10day2]

/-! Lemmas for the RSI claim. -/

theorem mem_zipWith {α β γ : Type} {f : α → β → γ} :
    ∀ {as : List α} {bs : List β} {x : γ}, x ∈ List.zipWith f as bs →
      ∃ a, a ∈ as ∧ ∃ b, b ∈ bs ∧ x = f a b := by
  intro as
  induction as with
  | nil => intro bs x hx; simp at hx
  | cons a as ih =>
      intro bs x hx
      cases bs with
      | nil => simp at hx
      | cons b bs =>
          simp only [List.zipWith_cons_cons, List.mem_cons] at hx
          rcases hx with rfl | hx
          · exact ⟨a, by simp, b, by simp, rfl⟩
          · rcases ih hx with ⟨a', ha', b', hb', rfl⟩
            exact ⟨a', by simp [ha'], b', by simp [hb'], rfl⟩

theorem ewmaFrom_nonneg {a : ℚ} (h0 : 0 ≤ a) (h1 : a ≤ 1) :
    ∀ {l : List ℚ} {prev : ℚ}, 0 ≤ prev → (∀ x ∈ l, 0 ≤ x) →
      ∀ y ∈ ewmaFrom a prev l, 0 ≤ y := by
  intro l
  induction l with
  | nil =>
      intro prev _ _ y hy
      simp [ewmaFrom] at hy
  | cons x xs ih =>
      intro prev hprev hl y hy
      simp only [ewmaFrom, List.mem_cons] at hy
      have hx : 0 ≤ x := hl x (by simp)
      have hy0 : 0 ≤ (1 - a) * prev + a * x := by nlinarith
      rcases hy with rfl | hy
      · exact hy0
      · exact ih hy0 (fun z hz => hl z (by simp [hz])) y hy

theorem ewma_nonneg {a : ℚ} (h0 : 0 ≤ a) (h1 : a ≤ 1) {l : List ℚ}
    (hl : ∀ x ∈ l, 0 ≤ x) : ∀ y ∈ ewma a l, 0 ≤ y := by
  cases l with
  | nil =>
      intro y hy
      simp [ewma] at hy
  | cons x xs =>
      intro y hy
      simp only [ewma, List.mem_cons] at hy
      rcases hy with rfl | hy
      · exact hl y (by simp)
      · exact ewmaFrom_nonneg h0 h1 (hl x (by simp))
          (fun z hz => hl z (by simp [hz])) y hy

theorem gainsFrom_nonneg : ∀ {l : List ℚ} {prev : ℚ},
    ∀ x ∈ gainsFrom prev l, 0 ≤ x := by
  intro l
  induction l with
  | nil =>
      intro prev x hx
      simp [gainsFrom] at hx
  | cons c cs ih =>
      intro prev x hx
      simp only [gainsFrom, List.mem_cons] at hx
      rcases hx with rfl | hx
      · split_ifs with h
        · linarith
        · exact le_refl 0
      · exact ih x hx

theorem lossesFrom_nonneg : ∀ {l : List ℚ} {prev : ℚ},
    ∀ x ∈ lossesFrom prev l, 0 ≤ x := by
  intro l
  induction l with
  | nil =>
      intro prev x hx
      simp [lossesFrom] at hx
  | cons c cs ih =>
      intro prev x hx
      simp only [lossesFrom, List.mem_cons] at hx
      rcases hx with rfl | hx
      · split_ifs with h
        · linarith
        · exact le_refl 0
      · exact ih x hx

theorem gains_nonneg {closes : List ℚ} : ∀ x ∈ gains closes, 0 ≤ x := by
  cases closes with
  | nil => intro x hx; simp [gains] at hx
  | cons c cs =>
      intro x hx
      simp only [gains, List.mem_cons] at hx
      rcases hx with rfl | hx
      · exact le_refl 0
      · exact gainsFrom_nonneg x hx

theorem losses_nonneg {closes : List ℚ} : ∀ x ∈ losses closes, 0 ≤ x := by
  cases closes with
  | nil => intro x hx; simp [losses] at hx
  | cons c cs =>
      intro x hx
      simp only [losses, List.mem_cons] at hx
      rcases hx with rfl | hx
      · exact le_refl 0
      · exact lossesFrom_nonneg x hx

theorem rhe_nonneg {q : ℚ} (h : 0 ≤ q) : 0 ≤ rhe q := by
  unfold rhe
  have hf : (0 : ℤ) ≤ ⌊q⌋ := Int.floor_nonneg.mpr h
  split_ifs <;> omega

theorem rhe_le {q : ℚ} {B : ℤ} (h : q < B) : rhe q ≤ B := by
  unfold rhe
  have hf : ⌊q⌋ < B := Int.floor_lt.mpr h
  split_ifs <;> omega

theorem round2_bounds {q : ℚ} (h0 : 0 ≤ q) (h1 : q < 100) :
    0 ≤ round2 q ∧ round2 q ≤ 100 := by
  unfold round2
  have ha : (0 : ℤ) ≤ rhe (q * 100) := rhe_nonneg (by nlinarith)
  have hb : rhe (q * 100) ≤ (10000 : ℤ) := rhe_le (by push_cast; nlinarith)
  have ha' : (0 : ℚ) ≤ (rhe (q * 100) : ℚ) := by exact_mod_cast ha
  have hb' : ((rhe (q * 100) : ℚ)) ≤ 10000 := by exact_mod_cast hb
  constructor
  · positivity
  · linarith

theorem rsiPoint_bounds {g l : ℚ} (hg : 0 ≤ g) (hl : 0 ≤ l) :
    0 ≤ rsiPoint g l ∧ rsiPoint g l ≤ 100 := by
  unfold rsiPoint
  split_ifs with h
  · norm_num
  · have hlpos : 0 < l := lt_of_le_of_ne hl (Ne.symm h)
    have hrs : 0 ≤ g / l := div_nonneg hg hl
    have ht1 : 0 < 100 / (1 + g / l) := by positivity
    have ht2 : 100 / (1 + g / l) ≤ 100 := div_le_self (by norm_num) (by linarith)
    exact round2_bounds (by linarith) (by linarith)

theorem lossesFrom_eq_zero : ∀ {l : List ℚ} {prev : ℚ},
    List.Chain (· < ·) prev l → ∀ x ∈ lossesFrom prev l, x = 0 := by
  intro l
  induction l with
  | nil =>
      intro prev _ x hx
      simp [lossesFrom] at hx
  | cons c cs ih =>
      intro prev hch x hx
      rcases List.chain_cons.mp hch with ⟨hpc, hcs⟩
      simp only [lossesFrom, List.mem_cons] at hx
      rcases hx with rfl | hx
      · rw [if_neg (not_lt.mpr (le_of_lt hpc))]
      · exact ih hcs x hx

theorem losses_eq_zero {closes : List ℚ} (h : List.Chain' (· < ·) closes) :
    ∀ x ∈ losses closes, x = 0 := by
  cases closes with
  | nil => intro x hx; simp [losses] at hx
  | cons c cs =>
      intro x hx
      simp only [losses, List.mem_cons] at hx
      rcases hx with rfl | hx
      · rfl
      · exact lossesFrom_eq_zero h x hx

theorem ewmaFrom_eq_zero {a : ℚ} : ∀ {l : List ℚ},
    (∀ x ∈ l, x = 0) → ∀ y ∈ ewmaFrom a 0 l, y = 0 := by
  intro l
  induction l with
  | nil =>
      intro _ y hy
      simp [ewmaFrom] at hy
  | cons x xs ih =>
      intro hl y hy
      have hx : x = 0 := hl x (by simp)
      subst hx
      simp only [ewmaFrom, List.mem_cons] at hy
      rcases hy with rfl | hy
      · ring
      · have : (1 - a) * 0 + a * 0 = 0 := by ring
        rw [this] at hy
        exact ih (fun z hz => hl z (by simp [hz])) y hy

theorem ewma_eq_zero {a : ℚ} {l : List ℚ} (hl : ∀ x ∈ l, x = 0) :
    ∀ y ∈ ewma a l, y = 0 := by
  cases l with
  | nil => intro y hy; simp [ewma] at hy
  | cons x xs =>
      intro y hy
      have hx : x = 0 := hl x (by simp)
      simp only [ewma, List.mem_cons] at hy
      rcases hy with rfl | hy
      · exact hx
      · rw [hx] at hy
        exact ewmaFrom_eq_zero (fun z hz => hl z (by simp [hz])) y hy

/-- Claim C6: Every value of the Wilder RSI series lies in `[0, 100]`, and
for a strictly rising close series (no day-over-day losses, so the decayed
`avg_loss` stays `0`) every RSI value is exactly `100`. -/
theorem claim_C6_rsi (closes : List ℚ) :
    (∀ x ∈ calculateRsi closes 14, 0 ≤ x ∧ x ≤ 100) ∧
    (List.Chain' (· < ·) closes → ∀ x ∈ calculateRsi closes 14, x = 100) := by
  have ha0 : (0 : ℚ) ≤ 1 / ((14 : ℕ) : ℚ) := by norm_num
  have ha1 : (1 : ℚ) / ((14 : ℕ) : ℚ) ≤ 1 := by norm_num
  constructor
  · intro x hx
    rcases mem_zipWith hx with ⟨g, hg, l, hl, rfl⟩
    exact rsiPoint_bounds (ewma_nonneg ha0 ha1 gains_nonneg g hg)
      (ewma_nonneg ha0 ha1 losses_nonneg l hl)
  · intro hchain x hx
    rcases mem_zipWith hx with ⟨g, hg, l, hl, rfl⟩
    have hlz : l = 0 := ewma_eq_zero (losses_eq_zero hchain) l hl
    rw [hlz]
    unfold rsiPoint
    simp

/-- Witness for C6: on the strictly rising series `[1, 2, 3]` the RSI
series contains `100`, that value satisfies the bounds, and every value of
the series equals `100`. -/
theorem claim_C6_rsi_witness :
    List.Chain' (fun a b : ℚ => a < b) [1, 2, 3] ∧
      (100 : ℚ) ∈ calculateRsi [1, 2, 3] 14 ∧
      (0 ≤ (100 : ℚ) ∧ (100 : ℚ) ≤ 100) ∧
      (∀ x ∈ calculateRsi [(1 : ℚ), 2, 3] 14, x = 100) := by
  have hchain : List.Chain' (fun a b : ℚ => a < b) [1, 2, 3] := by norm_num
  have hmem : (100 : ℚ) ∈ calculateRsi [(1 : ℚ), 2, 3] 14 := by
    norm_num [calculateRsi, gains, losses, gainsFrom, lossesFrom, ewma,
      ewmaFrom, rsiPoint]
  exact ⟨hchain, hmem, (claim_C6_rsi [1, 2, 3]).1 100 hmem,
    (claim_C6_rsi [1, 2, 3]).2 hchain⟩

/-! Lemmas for the merge claim. -/

theorem dropDupDates_mem : ∀ (l : List DailyBar) (seen : List ℕ) (d : ℕ),
    d ∈ (dropDupDates seen l).map (·.date) ↔
      d ∉ seen ∧ d ∈ l.map (·.date) := by
  intro l
  induction l with
  | nil =>
      intro seen d
      simp [dropDupDates]
  | cons r rs ih =>
      intro seen d
      by_cases hmem : r.date ∈ seen
      · simp only [dropDupDates, if_pos hmem, ih, List.map_cons, List.mem_cons]
        constructor
        · rintro ⟨hns, hd⟩
          exact ⟨hns, Or.inr hd⟩
        · rintro ⟨hns, rfl | hd⟩
          · exact absurd hmem hns
          · exact ⟨hns, hd⟩
      · simp only [dropDupDates, if_neg hmem, List.map_cons, List.mem_cons, ih,
          not_or]
        constructor
        · rintro (rfl | ⟨⟨hne, hns⟩, hd⟩)
          · exact ⟨hmem, Or.inl rfl⟩
          · exact ⟨hns, Or.inr hd⟩
        · rintro ⟨hns, rfl | hd⟩
          · exact Or.inl rfl
          · by_cases hdr : d = r.date
            · exact Or.inl hdr
            · exact Or.inr ⟨⟨hdr, hns⟩, hd⟩

theorem dropDupDates_nodup : ∀ (l : List DailyBar) (seen : List ℕ),
    ((dropDupDates seen l).map (·.date)).Nodup := by
  intro l
  induction l with
  | nil =>
      intro seen
      simp [dropDupDates]
  | cons r rs ih =>
      intro seen
      by_cases hmem : r.date ∈ seen
      · simp only [dropDupDates, if_pos hmem]
        exact ih seen
      · simp only [dropDupDates, if_neg hmem, List.map_cons]
        refine List.nodup_cons.mpr ⟨?_, ih _⟩
        intro hc
        exact ((dropDupDates_mem rs (r.date :: seen) r.date).mp hc).1 (by simp)

theorem mergeHistories_spec (l : List DailyBar) :
    ((List.insertionSort dateLE (dropDupDates [] l)).map (·.date)).Nodup ∧
    List.Sorted (· < ·)
      ((List.insertionSort dateLE (dropDupDates [] l)).map (·.date)) ∧
    ∀ d, d ∈ (List.insertionSort dateLE (dropDupDates [] l)).map (·.date) ↔
      d ∈ l.map (·.date) := by
  have hperm : List.Perm
      ((List.insertionSort dateLE (dropDupDates [] l)).map (·.date))
      ((dropDupDates [] l).map (·.date)) :=
    (List.perm_insertionSort dateLE (dropDupDates [] l)).map _
  have hnodup : ((List.insertionSort dateLE (dropDupDates [] l)).map
      (·.date)).Nodup :=
    hperm.nodup_iff.mpr (dropDupDates_nodup l [])
  have hsorted0 : List.Pairwise (fun a b : DailyBar => a.date ≤ b.date)
      (List.insertionSort dateLE (dropDupDates [] l)) :=
    List.sorted_insertionSort dateLE (dropDupDates [] l)
  have hsortedLE : List.Sorted (· ≤ ·)
      ((List.insertionSort dateLE (dropDupDates [] l)).map (·.date)) :=
    List.pairwise_map.mpr hsorted0
  refine ⟨hnodup, hsortedLE.lt_of_le hnodup, ?_⟩
  intro d
  rw [hperm.mem_iff, dropDupDates_mem]
  simp

/-- Claim C7: Concatenating two monthly history fragments in either order,
dropping duplicate dates and sorting by date yields a series with exactly
one row per distinct input date, strictly ascending in date; the resulting
date sequence does not depend on the concatenation order. -/
theorem claim_C7_merge (l1 l2 : List DailyBar) :
    ((mergeHistories l1 l2).map (·.date)).Nodup ∧
    List.Sorted (· < ·) ((mergeHistories l1 l2).map (·.date)) ∧
    (∀ d, d ∈ (mergeHistories l1 l2).map (·.date) ↔
      d ∈ (l1 ++ l2).map (·.date)) ∧
    (mergeHistories l1 l2).map (·.date) = (mergeHistories l2 l1).map (·.date) := by
  obtain ⟨h1n, h1s, h1m⟩ := mergeHistories_spec (l1 ++ l2)
  obtain ⟨h2n, h2s, h2m⟩ := mergeHistories_spec (l2 ++ l1)
  have e1 : mergeHistories l1 l2 =
      List.insertionSort dateLE (dropDupDates [] (l1 ++ l2)) := rfl
  have e2 : mergeHistories l2 l1 =
      List.insertionSort dateLE (dropDupDates [] (l2 ++ l1)) := rfl
  have hmem : ∀ d,
      d ∈ (List.insertionSort dateLE (dropDupDates [] (l1 ++ l2))).map (·.date) ↔
      d ∈ (List.insertionSort dateLE (dropDupDates [] (l2 ++ l1))).map (·.date) := by
    intro d
    rw [h1m, h2m]
    simp only [List.map_append, List.mem_append]
    exact or_comm
  have hperm := (List.perm_ext_iff_of_nodup h1n h2n).mpr hmem
  refine ⟨?_, ?_, ?_, ?_⟩
  · rw [e1]
    exact h1n
  · rw [e1]
    exact h1s
  · rw [e1]
    exact h1m
  · rw [e1, e2]
    exact List.eq_of_perm_of_sorted hperm h1s.le_of_lt h2s.le_of_lt

/-! Lemmas and claims about the orchestrator. -/

/-- Inversion of `analyze`: the two produced tables are the sorted
partitions of the collected results. -/
theorem analyze_some {ym : String} {roster : Option (List RosterRow)}
    {pipeline : RosterRow → Option OutputData} {t1 t2 : List OutputData}
    (h : analyze ym roster pipeline = some (t1, t2)) :
    ∃ rows, roster = some rows ∧
      t1 = List.insertionSort othersLE
        ((collectResults rows pipeline).filter (fun r => !(hasRule5 r))) ∧
      t2 = List.insertionSort cond5LE
        ((collectResults rows pipeline).filter (fun r => hasRule5 r)) := by
  unfold analyze at h
  cases hp : parseYearMonth ym with
  | none =>
      rw [hp] at h
      exact absurd h (by simp)
  | some p =>
      obtain ⟨y, m⟩ := p
      rw [hp] at h
      cases roster with
      | none => exact absurd h (by simp)
      | some rows =>
          refine ⟨rows, rfl, ?_⟩
          by_cases he : rows.isEmpty = true
          · simp only [he, if_true, ite_true] at h
            exact absurd h (by simp)
          · simp only [he, if_false, ite_false] at h
            by_cases hr : y < 1 ∨ 9999 < y ∨ m < 1 ∨ 12 < m
            · simp only [hr, if_true, ite_true] at h
              exact absurd h (by simp)
            · simp only [hr, if_false, ite_false] at h
              rw [if_neg (show ¬ (false = true) by simp)] at h
              rw [Option.some.injEq] at h
              exact ⟨(congrArg Prod.fst h).symm, (congrArg Prod.snd h).symm⟩

/-- Whichever of the two partitions contains a given record, the count of
that record in the two filters adds up to its count in the results. -/
theorem count_partition (p : OutputData → Bool) (l : List OutputData)
    (a : OutputData) :
    (l.filter p).count a + (l.filter (fun x => !(p x))).count a = l.count a := by
  induction l with
  | nil => simp
  | cons x xs ih =>
      cases hp : p x <;>
        simp [List.filter_cons, hp, List.count_cons, ih] <;> omega

/-- Claim C2: Given the two produced tables, a record lies in the rule-5
table iff it is an emitted result whose rules include rule 5 (even when
rules 1-4 also fired), lies in the "others" table iff it is an emitted
result without rule 5, and its multiplicities in the two tables add up to
its multiplicity among the emitted results — so every emitted record lands
in exactly one table. -/
theorem claim_C2_partition (ym : String) (rows : List RosterRow)
    (pipeline : RosterRow → Option OutputData) (t1 t2 : List OutputData)
    (h : analyze ym (some rows) pipeline = some (t1, t2)) (od : OutputData) :
    (od ∈ t2 ↔ od ∈ collectResults rows pipeline ∧ hasRule5 od = true) ∧
    (od ∈ t1 ↔ od ∈ collectResults rows pipeline ∧ hasRule5 od = false) ∧
    t1.count od + t2.count od = (collectResults rows pipeline).count od := by
  rcases analyze_some h with ⟨rows', hr, h1, h2⟩
  cases Option.some.inj hr
  subst h1
  subst h2
  have p1 := List.perm_insertionSort othersLE
    ((collectResults rows pipeline).filter (fun r => !(hasRule5 r)))
  have p2 := List.perm_insertionSort cond5LE
    ((collectResults rows pipeline).filter (fun r => hasRule5 r))
  refine ⟨?_, ?_, ?_⟩
  · rw [p2.mem_iff, List.mem_filter]
  · rw [p1.mem_iff, List.mem_filter]
    simp [Bool.not_eq_true']
  · rw [p1.count_eq, p2.count_eq, Nat.add_comm]
    exact count_partition _ _ _

/-- Helper evaluation for the C2 witness. -/
theorem analyze_c2_eval :
    analyze "2024/07" (some [c2rowA, c2rowB]) c2pipe = some ([c2odB], [c2odA]) := by
  have hp : parseYearMonth "2024/07" = some (2024, 7) := by decide
  have h5A : hasRule5 c2odA = true := rfl
  have h5B : hasRule5 c2odB = false := rfl
  unfold analyze
  rw [hp]
  norm_num [collectResults, c2pipe, c2rowA, c2rowB, h5A, h5B,
    List.insertionSort, List.orderedInsert]

/-- Witness for C2: on a concrete two-instrument run, the record matching
rules 4 and 5 lies exactly in the rule-5 table and the rule-1-only record
exactly in the "others" table. -/
theorem claim_C2_partition_witness :
    (c2odA ∈ [c2odA] ↔
      c2odA ∈ collectResults [c2rowA, c2rowB] c2pipe ∧ hasRule5 c2odA = true) ∧
    (c2odA ∈ [c2odB] ↔
      c2odA ∈ collectResults [c2rowA, c2rowB] c2pipe ∧ hasRule5 c2odA = false) ∧
    ([c2odB] : List OutputData).count c2odA +
        ([c2odA] : List OutputData).count c2odA =
      (collectResults [c2rowA, c2rowB] c2pipe).count c2odA :=
  claim_C2_partition "2024/07" [c2rowA, c2rowB] c2pipe [c2odB] [c2odA]
    analyze_c2_eval c2odA

/-- Claim C1, amended: Each produced "others" table is sorted by
`ma10_minus_ma5` ascending with ties broken by the formatted
`volume_multiplier` string descending, and each produced rule-5 table is
sorted by the formatted `volume_multiplier` string descending: the sort
keys compare the strings written at lines 373-375, which agrees with the
numeric order only between strings of equal length. -/
theorem claim_C1_sort (ym : String) (roster : Option (List RosterRow))
    (pipeline : RosterRow → Option OutputData) (t1 t2 : List OutputData)
    (h : analyze ym roster pipeline = some (t1, t2)) :
    List.Chain' othersLE t1 ∧ List.Chain' cond5LE t2 := by
  rcases analyze_some h with ⟨rows, -, h1, h2⟩
  subst h1
  subst h2
  exact ⟨List.Pairwise.chain' (List.sorted_insertionSort othersLE _),
    List.Pairwise.chain' (List.sorted_insertionSort cond5LE _)⟩

/-- Helper evaluation for the C1 instance: the two equal-gap records are
ordered by their multiplier strings, `"9.00"` before `"10.00"`. -/
theorem analyze_c1_eval :
    analyze "2024/07" (some [c1rowA, c1rowB]) c1pipe =
      some ([c1odA, c1odB], []) := by
  have hp : parseYearMonth "2024/07" = some (2024, 7) := by decide
  have hAB : othersLE c1odA c1odB :=
    Or.inr ⟨rfl, le_of_lt (by rw [String.lt_iff_toList_lt]; decide)⟩
  have h5A : hasRule5 c1odA = false := rfl
  have h5B : hasRule5 c1odB = false := rfl
  unfold analyze
  rw [hp]
  norm_num [collectResults, c1pipe, c1rowA, c1rowB, h5A, h5B,
    List.insertionSort, List.orderedInsert, hAB]

/-- Witness for C1 (amended): the concrete sorted tables satisfy both
adjacent-pair invariants. -/
theorem claim_C1_sort_witness :
    List.Chain' othersLE [c1odA, c1odB] ∧
      List.Chain' cond5LE ([] : List OutputData) :=
  claim_C1_sort "2024/07" (some [c1rowA, c1rowB]) c1pipe [c1odA, c1odB] []
    analyze_c1_eval

/-- Counterexample to claim C1 as stated: with two "others" records of equal
gap and multiplier strings `"9.00"` and `"10.00"`, the produced table
orders `"9.00"` first (string-descending), so the adjacent pair has
numerically increasing multipliers, violating the claimed numeric
descending tie-break. -/
theorem claim_C1_counterexample :
    analyze "2024/07" (some [c1rowA, c1rowB]) c1pipe =
        some ([c1odA, c1odB], []) ∧
      c1odA.ma10_minus_ma5 = c1odB.ma10_minus_ma5 ∧
      decVal c1odA.volume_multiplier < decVal c1odB.volume_multiplier := by
  refine ⟨analyze_c1_eval, rfl, ?_⟩
  show decVal "9.00" < decVal "10.00"
  have h9 : decVal "9.00" = 9 := by
    simp +decide [decVal, decValAux, fracVal]
  have h10 : decVal "10.00" = 10 := by
    simp +decide [decVal, decValAux, fracVal]
  rw [h9, h10]
  norm_num

/-- Claim C8, amended: The run produces no output exactly when the
`year_month` selector fails to parse, the roster fetch fails, the roster
is empty, or the parsed selector names a month outside 1..12 (or a year
outside 1..9999, where the standard-library date functions raise); in
every other case both tables are produced. -/
theorem claim_C8_abort (ym : String) (roster : Option (List RosterRow))
    (pipeline : RosterRow → Option OutputData) :
    analyze ym roster pipeline = none ↔
      parseYearMonth ym = none ∨ roster = none ∨ roster = some [] ∨
        ∃ y m, parseYearMonth ym = some (y, m) ∧
          (y < 1 ∨ 9999 < y ∨ m < 1 ∨ 12 < m) := by
  unfold analyze
  cases hp : parseYearMonth ym with
  | none => simp
  | some p =>
      obtain ⟨y, m⟩ := p
      cases roster with
      | none => simp
      | some rows =>
          by_cases he : rows.isEmpty = true
          · have hrows : rows = [] := List.isEmpty_iff.mp he
            subst hrows
            simp
          · have hrows : rows ≠ [] := fun hc => he (by simp [hc])
            by_cases hr : y < 1 ∨ 9999 < y ∨ m < 1 ∨ 12 < m
            · simp only [he, if_false, ite_false, hr, if_true, ite_true]
              constructor
              · intro _
                exact Or.inr (Or.inr (Or.inr ⟨y, m, rfl, hr⟩))
              · intro _
                rfl
            · simp only [he, if_false, ite_false, hr]
              constructor
              · intro hcon
                exact absurd hcon (by simp)
              · rintro (hc | hc | hc | ⟨y', m', hpm, hc⟩)
                · exact Option.noConfusion hc
                · exact Option.noConfusion hc
                · exact absurd (Option.some.inj hc) hrows
                · rw [Option.some.injEq, Prod.mk.injEq] at hpm
                  obtain ⟨hy, hm⟩ := hpm
                  subst hy
                  subst hm
                  exact absurd hc hr

/-- Counterexample to claim C8 as stated: with a successfully fetched,
non-empty roster but a malformed `year_month` selector, the run still
aborts with no output tables. -/
theorem claim_C8_counterexample :
    analyze "bad" (some [c8row]) (fun _ => none) = none ∧
      (some [c8row] : Option (List RosterRow)) ≠ none ∧
      ([c8row] : List RosterRow) ≠ [] := by
  refine ⟨?_, by simp, by simp⟩
  have hp : parseYearMonth "bad" = none := by decide
  unfold analyze
  rw [hp]

end Twex
